import Mathlib

/-!
Shallow embedding of the core of bitprim-network: the channel proxy's
read/write/stop machinery (src/proxy.cpp) and the connection registry
(src/collections/connections.cpp), with theorems checking the spec's claims.

Machine integers (magic, version, payload sizes, nonces) are modelled as `Nat`;
none of the embedded code paths perform arithmetic that could overflow, so no
modular reduction is needed. Authorities and message payload bytes are abstract
`Nat` values. External collaborators (heading codec, message subscriber,
checksum) are modelled from the spec where noted.
-/

/-- Error taxonomy of the library (spec section 7; `error::` codes used in
src/proxy.cpp and src/collections/connections.cpp). Transport errors carry an
abstract kind, as do codec parse errors. -/
inductive ErrCode where
  | success
  | operation_failed
  | channel_stopped
  | bad_stream
  | service_stopped
  | address_in_use
  | not_found
  | transport (kind : Nat)
  | parse (kind : Nat)
deriving DecidableEq, Repr

/-- A channel as seen by the registry: `id` models C++ object identity
(the `channel::ptr` shared pointer compared by `std::find` in
`connections::safe_remove`), `author` its authority, `nonce` its 64-bit
self-connection nonce. -/
structure Chan where
  id : Nat
  author : Nat
  nonce : Nat
deriving DecidableEq, Repr

/-- State of the connection registry: the member vector `channels_` and the
`stopped_` flag (src/collections/connections.cpp). -/
structure Connections where
  channels : List Chan
  stopped : Bool
deriving DecidableEq, Repr

/-- `connections::connections`: starts not stopped with no members. -/
def conn_init : Connections := ⟨[], false⟩

/-- The duplicate test of `connections::safe_store`: an existing entry matches
the candidate when it shares its authority or its nonce. -/
def store_match (ch : Chan) (entry : Chan) : Bool :=
  entry.author == ch.author || entry.nonce == ch.nonce

/-- `connections::safe_store` (src/collections/connections.cpp:136-172): under
the lock, read the stopped flag; if not stopped and no member matches the
candidate's authority or nonce, append it and return success; otherwise return
service_stopped when stopped, else address_in_use. -/
def safe_store (r : Connections) (ch : Chan) : Connections × ErrCode :=
  if r.stopped then (r, .service_stopped)
  else if r.channels.any (store_match ch) then (r, .address_in_use)
  else ({ r with channels := r.channels ++ [ch] }, .success)

/-- Erase the first member whose object identity matches `i`
(`channels_.erase(it)` after `std::find` on the shared pointer). -/
def erase_id : List Chan → Nat → List Chan
  | [], _ => []
  | e :: rest, i => if e.id == i then rest else e :: erase_id rest i

/-- `connections::safe_remove` (src/collections/connections.cpp:106-129):
find the channel by object identity; erase and return true when found,
else return false. The stopped flag is not consulted. -/
def safe_remove (r : Connections) (ch : Chan) : Connections × Bool :=
  if r.channels.any (fun e => e.id == ch.id) then
    ({ r with channels := erase_id r.channels ch.id }, true)
  else (r, false)

/-- `connections::remove` maps the boolean of `safe_remove` to a code. -/
def remove_code (r : Connections) (ch : Chan) : Connections × ErrCode :=
  let (r1, ok) := safe_remove r ch
  (r1, if ok then .success else .not_found)

/-- The registry-state part of `connections::stop`: mark stopped (the member
list itself is only copied there; members are stopped outside the lock and
de-register themselves through separate `remove` calls). -/
def conn_stop (r : Connections) : Connections := { r with stopped := true }

/-- An operation on the registry, for reachability statements. -/
inductive ConnOp where
  | store (ch : Chan)
  | remove (ch : Chan)
  | stop
deriving DecidableEq, Repr

/-- Apply one registry operation (discarding the returned code). -/
def connApply (r : Connections) : ConnOp → Connections
  | .store ch => (safe_store r ch).1
  | .remove ch => (safe_remove r ch).1
  | .stop => conn_stop r

/-- The registry state after a sequence of operations from the empty registry. -/
def connRun (ops : List ConnOp) : Connections :=
  ops.foldl connApply conn_init

/-- Registry uniqueness invariant: pairwise distinct authorities and pairwise
distinct nonces among the members. -/
def ConnInv (r : Connections) : Prop :=
  (r.channels.map Chan.author).Nodup ∧ (r.channels.map Chan.nonce).Nodup

/-!
Channel proxy (src/proxy.cpp). The read cycle, send path and stop sequence are
modelled as pure functions over an explicit proxy state, emitting a trace of
observable events (subscriber invocations, stops, socket operations).
-/

/-- The 24-byte frame prefix as already decoded by the external heading codec
(`heading::factory_from_data`): magic, command, payload length, checksum.
The byte-level decoding itself is external to this repository. -/
structure Heading where
  magic : Nat
  command : String
  payload_size : Nat
  checksum : Nat
deriving DecidableEq, Repr

/-- Modelled from the spec: the external codec interface of section 6.
`parse command version payload` returns a result code and the number of payload
bytes consumed (the reader is at EOF iff it consumed them all); `checksum` is
the `bitcoin_checksum` double-SHA-256 primitive, abstract here. -/
structure Codec where
  parse : String → Nat → List Nat → ErrCode × Nat
  checksum : List Nat → Nat

/-- Observable events of the proxy: payload reads issued, typed-subscriber
deliveries, stop notifications, activity pings, the next heading read, and the
socket close. -/
inductive Event where
  | payload_read (n : Nat)
  | deliver (command : String) (handler : Nat)
  | msg_stopped (handler : Nat)
  | stop_notify (handler : Nat) (ec : ErrCode)
  | stop_called (ec : ErrCode)
  | activity
  | next_heading_read
  | socket_close
deriving DecidableEq, Repr

/-- State of a channel proxy (fields of `class proxy`): the configured magic,
the payload buffer capacity (fixed at construction), the atomic negotiated
version and stopped flag, and the two subscriber tables. A message subscriber
is a (command, handler id) pair; a stop subscriber a handler id. -/
structure ProxyState where
  protocol_magic : Nat
  capacity : Nat
  version : Nat
  stopped : Bool
  msgSubStopped : Bool
  msgHandlers : List (String × Nat)
  stopSubStopped : Bool
  stopHandlers : List Nat
deriving DecidableEq, Repr

/-- `proxy::proxy` (src/proxy.cpp:43-55), parameterized by the external
`heading::maximum_payload_size` function `mp` (spec: monotonically
non-decreasing in version): the payload buffer capacity is `mp` at the
configured protocol maximum, the version starts at the protocol maximum, and
the proxy is constructed stopped. -/
def proxy_init (mp : Nat → Nat) (protocol_magic protocol_maximum : Nat) :
    ProxyState :=
  { protocol_magic := protocol_magic
    capacity := mp protocol_maximum
    version := protocol_maximum
    stopped := true
    msgSubStopped := false
    msgHandlers := []
    stopSubStopped := false
    stopHandlers := [] }

/-- `proxy::negotiated_version`. -/
def negotiated_version (st : ProxyState) : Nat := st.version

/-- `proxy::set_negotiated_version` (src/proxy.cpp:75-78): stores the given
value unconditionally. -/
def set_negotiated_version (st : ProxyState) (value : Nat) : ProxyState :=
  { st with version := value }

/-- `proxy::start` (src/proxy.cpp:83-100): fails with operation_failed when
already running; otherwise clears the stopped flag and arms both subscriber
tables before the first read. -/
def proxy_start (st : ProxyState) : ProxyState × ErrCode :=
  if st.stopped = false then (st, .operation_failed)
  else
    ({ st with
        stopped := false
        msgSubStopped := false
        stopSubStopped := false }, .success)

/-- `proxy::stop` (src/proxy.cpp:316-335): set the stopped flag; stop the
message subscriber and broadcast channel_stopped to every registered typed
handler, discarding them; stop the stop subscriber and relay `ec` to every
registered stop handler, discarding them; then close the socket. Delivery-and-
discard of the handlers is the subscriber behavior modelled from the spec
("the handler is invoked once with channel_stopped and discarded"); the
subscriber utility itself is not under src/. -/
def proxy_stop (st : ProxyState) (ec : ErrCode) : ProxyState × List Event :=
  let msgEvts := st.msgHandlers.map (fun h => Event.msg_stopped h.2)
  let stopEvts := st.stopHandlers.map (fun h => Event.stop_notify h ec)
  ({ st with
      stopped := true
      msgSubStopped := true
      msgHandlers := []
      stopSubStopped := true
      stopHandlers := [] },
    Event.stop_called ec :: (msgEvts ++ stopEvts ++ [Event.socket_close]))

/-- Iterated `proxy::stop`, collecting all emitted events in order. -/
def proxy_stop_iter (st : ProxyState) : List ErrCode → ProxyState × List Event
  | [] => (st, [])
  | ec :: rest =>
    let (st1, evts) := proxy_stop st ec
    let (st2, more) := proxy_stop_iter st1 rest
    (st2, evts ++ more)

/-- Modelled from the spec: `message_subscriber::load` (the message subscriber
utility is not under src/). It parses the payload for the heading's command
under the negotiated version and, on success, delivers the parsed message to
every typed handler registered for that command, in registration order; it
returns the parse code and the consumed byte count. On a parse failure no
handler is invoked ("no subscriber receives a partial or spurious message"). -/
def subscriber_load (handlers : List (String × Nat)) (codec : Codec)
    (command : String) (version : Nat) (payload : List Nat) :
    ErrCode × Nat × List Event :=
  let (c, consumed) := codec.parse command version payload
  if c = .success then
    (c, consumed,
      (handlers.filter (fun h => h.1 == command)).map
        (fun h => Event.deliver command h.2))
  else (c, consumed, [])

/-- `proxy::handle_read_heading` (src/proxy.cpp:131-177): short-circuit when
stopped; stop on a transport error; stop with bad_stream when the decoded
heading fails self-validation, when its magic differs from the configured
magic, or when its payload size exceeds the payload buffer capacity; otherwise
issue the payload read (returned as `some head`) and signal activity.
`ec` is the translated transport error of the heading read, `head_valid` the
result of `heading::is_valid` on the decoded heading (the validation itself is
external). -/
def handle_read_heading (st : ProxyState) (ec : Option ErrCode)
    (head_valid : Bool) (head : Heading) :
    ProxyState × List Event × Option Heading :=
  if st.stopped then (st, [], none)
  else
    match ec with
    | some e =>
      let (st1, evts) := proxy_stop st e
      (st1, evts, none)
    | none =>
      if head_valid = false then
        let (st1, evts) := proxy_stop st .bad_stream
        (st1, evts, none)
      else if head.magic ≠ st.protocol_magic then
        let (st1, evts) := proxy_stop st .bad_stream
        (st1, evts, none)
      else if head.payload_size > st.capacity then
        let (st1, evts) := proxy_stop st .bad_stream
        (st1, evts, none)
      else
        (st, [Event.payload_read head.payload_size, Event.activity], some head)

/-- `proxy::handle_read_payload` (src/proxy.cpp:200-265): short-circuit when
stopped; stop on a transport error; stop with bad_stream on a checksum
mismatch; run `message_subscriber_.load` (which delivers on parse success),
then stop with the parse code on a parse failure, or with bad_stream when the
codec consumed fewer than all payload bytes; otherwise signal activity and
issue the next heading read. `payload` is the payload buffer contents after
the exact read of `head.payload_size` bytes. -/
def handle_read_payload (st : ProxyState) (codec : Codec) (ec : Option ErrCode)
    (head : Heading) (payload : List Nat) : ProxyState × List Event :=
  if st.stopped then (st, [])
  else
    match ec with
    | some e => proxy_stop st e
    | none =>
      if head.checksum ≠ codec.checksum payload then
        proxy_stop st .bad_stream
      else
        let (c, consumed, delivers) :=
          subscriber_load st.msgHandlers codec head.command st.version payload
        if c ≠ .success then
          let (st1, evts) := proxy_stop st c
          (st1, delivers ++ evts)
        else if consumed ≠ payload.length then
          let (st1, evts) := proxy_stop st .bad_stream
          (st1, delivers ++ evts)
        else
          (st, delivers ++ [Event.activity, Event.next_heading_read])

/-- One full read cycle: `handle_read_heading` on the heading-read outcome,
then, when a payload read was issued, `handle_read_payload` on the
payload-read outcome, with the traces concatenated in order. -/
def read_cycle (st : ProxyState) (codec : Codec) (hec : Option ErrCode)
    (head_valid : Bool) (head : Heading) (pec : Option ErrCode)
    (payload : List Nat) : ProxyState × List Event :=
  let (st1, evts1, req) := handle_read_heading st hec head_valid head
  match req with
  | none => (st1, evts1)
  | some h =>
    let (st2, evts2) := handle_read_payload st1 codec pec h payload
    (st2, evts1 ++ evts2)

/-- The immediate outcome of `proxy::do_send`: either the completion handler
is invoked at once with a code and no write reaches the socket, or the write
is dispatched to the socket. -/
inductive SendAction where
  | immediate (ec : ErrCode)
  | dispatch (command : String) (buffer : List Nat)
deriving DecidableEq, Repr

/-- `proxy::do_send` (src/proxy.cpp:270-294): when the channel is stopped the
handler is invoked with channel_stopped and nothing is written; otherwise the
buffer is handed to `async_write` on the socket. -/
def do_send (st : ProxyState) (command : String) (buffer : List Nat) :
    SendAction :=
  if st.stopped then .immediate .channel_stopped
  else .dispatch command buffer

/-- Modelled from the spec: `error::boost_to_error_code`, the translation of a
transport outcome into the library's code (success when no error). The
translation table is external to this repository. -/
def boost_to_error_code : Option Nat → ErrCode
  | none => .success
  | some k => .transport k

/-- `proxy::handle_send` (src/proxy.cpp:296-307): translate the transport
outcome, log on failure, and report the translated code to the send's
completion handler. The proxy state is not touched: no stop, no change to the
stopped flag or either subscriber table. -/
def handle_send (st : ProxyState) (ec : Option Nat) : ProxyState × ErrCode :=
  (st, boost_to_error_code ec)

/-!
Concrete instances used to exercise the theorems below on closed inputs.
-/

/-- A concrete codec: every command parses successfully consuming all payload
bytes, and the checksum is the byte sum. -/
def demoCodec : Codec :=
  ⟨fun _ _ p => (.success, p.length), fun p => p.foldl (· + ·) 0⟩

/-- A concrete codec whose parser consumes all but the last payload byte,
leaving trailing bytes. -/
def demoCodecShort : Codec :=
  ⟨fun _ _ p => (.success, p.length - 1), fun p => p.foldl (· + ·) 0⟩

/-- A concrete codec whose parser always fails with parse-error kind 5. -/
def demoCodecFail : Codec :=
  ⟨fun _ _ _ => (.parse 5, 0), fun p => p.foldl (· + ·) 0⟩

/-- A concrete running proxy state with one typed subscriber for "version"
(handler 7) and one stop subscriber (handler 3). -/
def demoProxy : ProxyState :=
  { protocol_magic := 9
    capacity := 10
    version := 70012
    stopped := false
    msgSubStopped := false
    msgHandlers := [("version", 7)]
    stopSubStopped := false
    stopHandlers := [3] }

/-- A concrete registry holding one member. -/
def demoReg : Connections := ⟨[⟨0, 5, 42⟩], false⟩

/-!
Theorems. Event-trace helpers first.
-/

/-- Whether an event is a typed-subscriber delivery. -/
def isDeliver : Event → Bool
  | .deliver _ _ => true
  | _ => false

/-- Whether an event is a stop-subscriber notification. -/
def isStopNotify : Event → Bool
  | .stop_notify _ _ => true
  | _ => false

/-- Whether an event is a channel_stopped delivery to a typed handler. -/
def isMsgStopped : Event → Bool
  | .msg_stopped _ => true
  | _ => false

/-- Whether an event is a payload read. -/
def isPayloadRead : Event → Bool
  | .payload_read _ => true
  | _ => false

/-- Whether an event is a stop of the channel. -/
def isStopCalled : Event → Bool
  | .stop_called _ => true
  | _ => false

/-- The outcome `out` of a read cycle stopped the channel with code `ec` and
delivered nothing to any typed subscriber. -/
def StopsNoDeliver (out : ProxyState × List Event) (ec : ErrCode) : Prop :=
  out.1.stopped = true ∧
  out.2.filter isStopCalled = [Event.stop_called ec] ∧
  out.2.filter isDeliver = []

/-- A concrete proxy constructed with the strictly increasing maximum-payload
function `fun v => v` at protocol maximum 2, started, and then narrowed to
version 1: its payload buffer capacity stays 2 = max_payload(2), while
max_payload(current version) = 1. -/
def demoNarrowed : ProxyState :=
  set_negotiated_version (proxy_start (proxy_init (fun v => v) 9 2)).1 1

theorem erase_id_sublist (l : List Chan) (i : Nat) : (erase_id l i).Sublist l := by
  induction l with
  | nil => simp [erase_id]
  | cons e rest ih =>
    by_cases h : e.id = i
    · simp [erase_id, h]
    · simpa [erase_id, h] using ih.cons₂ e

theorem store_no_match (r : Connections) (ch : Chan)
    (h : r.channels.any (store_match ch) = false) :
    ∀ e ∈ r.channels, e.author ≠ ch.author ∧ e.nonce ≠ ch.nonce := by
  intro e he
  have := List.any_eq_false.mp h e he
  simp only [store_match, Bool.or_eq_true, beq_iff_eq, not_or] at this
  exact this

theorem connApply_inv (r : Connections) (op : ConnOp) (h : ConnInv r) :
    ConnInv (connApply r op) := by
  obtain ⟨ha, hn⟩ := h
  cases op with
  | store ch =>
    unfold connApply safe_store
    by_cases hs : r.stopped
    · simpa [hs] using ⟨ha, hn⟩
    · by_cases hf : r.channels.any (store_match ch)
      · simpa [hs, hf] using ⟨ha, hn⟩
      · have hnm := store_no_match r ch (by simpa using hf)
        simp only [hs, hf, Bool.false_eq_true, if_false, if_true]
        refine ⟨?_, ?_⟩ <;>
          simp only [List.map_append, List.map_cons, List.map_nil,
            List.nodup_append, List.nodup_cons, List.nodup_nil,
            List.disjoint_singleton] <;>
          refine ⟨by assumption, by simp, ?_⟩ <;>
          · intro hx
            obtain ⟨e, he, hee⟩ := List.mem_map.mp hx
            rcases hnm e he with ⟨h1, h2⟩
            first
              | exact h1 hee
              | exact h2 hee
  | remove ch =>
    unfold connApply safe_remove
    by_cases hf : r.channels.any (fun e => e.id == ch.id)
    · have hsub := (erase_id_sublist r.channels ch.id).map Chan.author
      have hsub2 := (erase_id_sublist r.channels ch.id).map Chan.nonce
      simpa [hf] using ⟨ha.sublist hsub, hn.sublist hsub2⟩
    · simpa [hf] using ⟨ha, hn⟩
  | stop =>
    simpa [connApply, conn_stop] using ⟨ha, hn⟩

/-- C5: every registry state reachable from the empty registry by store,
remove and stop operations has pairwise distinct member authorities and
pairwise distinct member nonces. -/
theorem registry_uniqueness_invariant (ops : List ConnOp) :
    ConnInv (connRun ops) := by
  suffices h : ∀ r, ConnInv r → ConnInv (ops.foldl connApply r) from
    h conn_init (by constructor <;> simp [conn_init])
  induction ops with
  | nil => exact fun r h => h
  | cons op rest ih =>
    exact fun r h => ih (connApply r op) (connApply_inv r op h)

/-- C4: `store` returns service_stopped when the registry is stopped;
otherwise address_in_use when some member shares the candidate's authority or
nonce, leaving the membership unchanged; otherwise success, appending the
candidate to the membership. -/
theorem store_result_spec (r : Connections) (ch : Chan) :
    (r.stopped = true → safe_store r ch = (r, .service_stopped)) ∧
    (r.stopped = false →
      (∃ e ∈ r.channels, e.author = ch.author ∨ e.nonce = ch.nonce) →
      safe_store r ch = (r, .address_in_use)) ∧
    (r.stopped = false →
      (∀ e ∈ r.channels, e.author ≠ ch.author ∧ e.nonce ≠ ch.nonce) →
      safe_store r ch =
        ({ r with channels := r.channels ++ [ch] }, .success)) := by
  refine ⟨fun hs => by simp [safe_store, hs], fun hs hdup => ?_, fun hs hnew => ?_⟩
  · have hany : r.channels.any (store_match ch) = true := by
      obtain ⟨e, he, hor⟩ := hdup
      exact List.any_eq_true.mpr ⟨e, he, by simpa [store_match] using hor⟩
    simp [safe_store, hs, hany]
  · have hany : r.channels.any (store_match ch) = false := by
      refine List.any_eq_false.mpr fun e he => ?_
      rcases hnew e he with ⟨h1, h2⟩
      simp [store_match, h1, h2]
    simp [safe_store, hs, hany]

/-- Closed check of `store_result_spec` at concrete registries. -/
theorem store_result_spec_check :
    safe_store (conn_stop demoReg) ⟨2, 6, 43⟩ =
      (conn_stop demoReg, .service_stopped) ∧
    safe_store demoReg ⟨1, 6, 42⟩ = (demoReg, .address_in_use) ∧
    safe_store demoReg ⟨1, 6, 43⟩ =
      ({ demoReg with channels := demoReg.channels ++ [⟨1, 6, 43⟩] },
        .success) := by
  refine ⟨(store_result_spec (conn_stop demoReg) ⟨2, 6, 43⟩).1 (by decide),
    (store_result_spec demoReg ⟨1, 6, 42⟩).2.1 rfl
      ⟨⟨0, 5, 42⟩, by decide, by decide⟩,
    (store_result_spec demoReg ⟨1, 6, 43⟩).2.2 rfl (by decide)⟩

theorem erase_id_no_id (l : List Chan) (i : Nat)
    (h : (l.map Chan.id).Nodup) : ∀ e ∈ erase_id l i, e.id ≠ i := by
  induction l with
  | nil => simp [erase_id]
  | cons e rest ih =>
    simp only [List.map_cons, List.nodup_cons] at h
    by_cases hid : e.id = i
    · intro x hx hxi
      have hx' : x ∈ rest := by simpa [erase_id, hid] using hx
      apply h.1
      rw [hid, ← hxi]
      exact List.mem_map_of_mem Chan.id hx'
    · intro x hx
      rcases (by simpa [erase_id, hid] using hx : x = e ∨ x ∈ erase_id rest i)
        with rfl | hx2
      · exact hid
      · exact ih h.2 x hx2

/-- C10: the registry removes by channel object identity, not by authority or
nonce. Removing a distinct non-member object B carrying the same authority and
nonce as member A returns not_found and leaves the membership unchanged, while
removing A succeeds and a second removal of A then returns not_found with the
membership again unchanged. -/
theorem remove_matches_by_identity (r : Connections) (A B : Chan)
    (hA : A ∈ r.channels)
    (hNodup : (r.channels.map Chan.id).Nodup)
    (hBnot : ∀ e ∈ r.channels, e.id ≠ B.id)
    (hauth : B.author = A.author) (hnonce : B.nonce = A.nonce) :
    remove_code r B = (r, .not_found) ∧
    remove_code r A = ((safe_remove r A).1, .success) ∧
    remove_code (safe_remove r A).1 A = ((safe_remove r A).1, .not_found) := by
  have hBany : r.channels.any (fun e => e.id == B.id) = false :=
    List.any_eq_false.mpr fun e he => by simpa using hBnot e he
  have hAany : r.channels.any (fun e => e.id == A.id) = true :=
    List.any_eq_true.mpr ⟨A, hA, by simp⟩
  have hr1 : safe_remove r A =
      ({ r with channels := erase_id r.channels A.id }, true) := by
    rw [safe_remove, hAany]
    simp
  have h2 : (erase_id r.channels A.id).any (fun e => e.id == A.id) = false := by
    refine List.any_eq_false.mpr fun e he => ?_
    simpa using erase_id_no_id r.channels A.id hNodup e he
  refine ⟨?_, ?_, ?_⟩
  · rw [remove_code, safe_remove, hBany]
    simp
  · rw [remove_code, hr1]
    simp
  · rw [hr1, remove_code, safe_remove]
    simp [h2]

/-- Closed check of `remove_matches_by_identity` on a one-member registry and
a same-authority same-nonce impostor. -/
theorem remove_matches_by_identity_check :
    remove_code demoReg ⟨1, 5, 42⟩ = (demoReg, .not_found) ∧
    remove_code demoReg ⟨0, 5, 42⟩ =
      ((safe_remove demoReg ⟨0, 5, 42⟩).1, .success) ∧
    remove_code (safe_remove demoReg ⟨0, 5, 42⟩).1 ⟨0, 5, 42⟩ =
      ((safe_remove demoReg ⟨0, 5, 42⟩).1, .not_found) :=
  remove_matches_by_identity demoReg ⟨0, 5, 42⟩ ⟨1, 5, 42⟩
    (by decide) (by decide) (by decide) rfl rfl

theorem proxy_stop_clears (st : ProxyState) (ec : ErrCode) :
    (proxy_stop st ec).1.msgHandlers = [] ∧
    (proxy_stop st ec).1.stopHandlers = [] ∧
    (proxy_stop st ec).1.stopped = true :=
  ⟨rfl, rfl, rfl⟩

theorem stop_iter_cleared (ecs : List ErrCode) :
    ∀ st : ProxyState, st.msgHandlers = [] → st.stopHandlers = [] →
      (proxy_stop_iter st ecs).2.filter isMsgStopped = [] ∧
      (proxy_stop_iter st ecs).2.filter isStopNotify = [] := by
  induction ecs with
  | nil => intro st _ _; simp [proxy_stop_iter]
  | cons e rest ih =>
    intro st hm hs
    have hnext := ih (proxy_stop st e).1 rfl rfl
    simp only [proxy_stop_iter, proxy_stop, hm, hs, List.map_nil,
      List.nil_append, List.filter_append] at hnext ⊢
    simpa [isMsgStopped, isStopNotify] using hnext

/-- C6: calling stop k ≥ 1 times in succession delivers exactly one
channel_stopped notification to each typed message subscriber registered at
the first stop, and exactly one notification carrying the first stop's code to
each registered stop subscriber; later stops notify nobody. -/
theorem stop_idempotent_notifications (st : ProxyState) (ec : ErrCode)
    (rest : List ErrCode) :
    (proxy_stop_iter st (ec :: rest)).2.filter isMsgStopped
        = st.msgHandlers.map (fun h => Event.msg_stopped h.2) ∧
    (proxy_stop_iter st (ec :: rest)).2.filter isStopNotify
        = st.stopHandlers.map (fun h => Event.stop_notify h ec) := by
  have hnext := stop_iter_cleared rest (proxy_stop st ec).1 rfl rfl
  simp only [proxy_stop_iter, proxy_stop, List.filter_append] at hnext ⊢
  rw [hnext.1, hnext.2]
  constructor <;>
    simp [List.filter_cons, List.filter_append, isMsgStopped, isStopNotify,
      List.filter_map, Function.comp_def]

/-- C7: a send on a stopped channel completes with channel_stopped and
dispatches no write to the socket. -/
theorem send_after_stop (st : ProxyState) (command : String)
    (buffer : List Nat) (h : st.stopped = true) :
    do_send st command buffer = .immediate .channel_stopped := by
  simp [do_send, h]

/-- Closed check of `send_after_stop` on a freshly stopped concrete channel. -/
theorem send_after_stop_check :
    do_send (proxy_stop demoProxy .bad_stream).1 "ping" [1, 2] =
      .immediate .channel_stopped :=
  send_after_stop (proxy_stop demoProxy .bad_stream).1 "ping" [1, 2] rfl

/-- C8: a write completing with a transport error reports the translated
error to that send's handler but leaves the channel state — the stopped flag
and both subscriber tables — unchanged, so a subsequent read cycle behaves
exactly as before the failed write. -/
theorem failed_send_leaves_state (st : ProxyState) (k : Nat) :
    (handle_send st (some k)).2 = .transport k ∧
    (handle_send st (some k)).1 = st ∧
    (handle_send st (some k)).1.stopped = st.stopped ∧
    (handle_send st (some k)).1.msgHandlers = st.msgHandlers ∧
    (handle_send st (some k)).1.stopHandlers = st.stopHandlers ∧
    (∀ (codec : Codec) (hec : Option ErrCode) (hv : Bool) (head : Heading)
        (pec : Option ErrCode) (payload : List Nat),
      read_cycle (handle_send st (some k)).1 codec hec hv head pec payload
        = read_cycle st codec hec hv head pec payload) :=
  ⟨rfl, rfl, rfl, rfl, rfl, fun _ _ _ _ _ _ => rfl⟩

/-- C9 counterexample: `set_negotiated_version` stores its argument
unconditionally, so a caller can raise the version above a previously stored
value: from the configured maximum 10, storing 1 and then 5 leaves 5 > 1. -/
theorem set_version_can_raise :
    negotiated_version (proxy_init (fun v => v) 9 10) = 10 ∧
    negotiated_version
      (set_negotiated_version (proxy_init (fun v => v) 9 10) 1) = 1 ∧
    negotiated_version (set_negotiated_version
      (set_negotiated_version (proxy_init (fun v => v) 9 10) 1) 5) = 5 ∧
    (1 : Nat) < 5 :=
  ⟨rfl, rfl, rfl, by norm_num⟩

theorem foldl_set_version_le (vs : List Nat) :
    ∀ st : ProxyState, List.Chain (fun a b => b ≤ a) st.version vs →
      (vs.foldl set_negotiated_version st).version ≤ st.version := by
  induction vs with
  | nil => intro st _; simp
  | cons v rest ih =>
    intro st h
    cases h with
    | cons hv hrest =>
      calc (rest.foldl set_negotiated_version
              (set_negotiated_version st v)).version
          ≤ (set_negotiated_version st v).version := ih _ hrest
        _ = v := rfl
        _ ≤ st.version := hv

/-- C9 amended: the negotiated version is initially the configured protocol
maximum; `set_negotiated_version` stores exactly the value given, with no
monotonicity enforcement in the code; whenever every call passes a value not
exceeding the previously stored version (as callers are expected to), the
stored version never exceeds the configured maximum. -/
theorem version_monotone_when_narrowed (mp : Nat → Nat)
    (magic maxv value : Nat) (st : ProxyState) (vs : List Nat)
    (h : List.Chain (fun a b => b ≤ a) maxv vs) :
    negotiated_version (proxy_init mp magic maxv) = maxv ∧
    negotiated_version (set_negotiated_version st value) = value ∧
    negotiated_version
      (vs.foldl set_negotiated_version (proxy_init mp magic maxv)) ≤ maxv :=
  ⟨rfl, rfl, foldl_set_version_le vs (proxy_init mp magic maxv) h⟩

/-- Closed check of `version_monotone_when_narrowed` with narrowing calls
5 then 3 from configured maximum 10. -/
theorem version_monotone_when_narrowed_check :
    negotiated_version (proxy_init (fun v => v) 9 10) = 10 ∧
    negotiated_version (set_negotiated_version demoProxy 4) = 4 ∧
    negotiated_version (([5, 3] : List Nat).foldl set_negotiated_version
      (proxy_init (fun v => v) 9 10)) ≤ 10 :=
  version_monotone_when_narrowed (fun v => v) 9 10 4 demoProxy [5, 3]
    (List.Chain.cons (by norm_num)
      (List.Chain.cons (by norm_num) List.Chain.nil))

theorem getLast?_append_pair (l : List Event) (a b : Event) :
    (l ++ [a, b]).getLast? = some b := by
  rw [show l ++ [a, b] = (l ++ [a]) ++ [b] by simp, List.getLast?_concat]

/-- C1: a frame with a valid heading, matching magic, in-bounds payload
length, matching checksum and an exact parse is delivered once to each typed
subscriber registered for its command; the channel is not stopped and the
cycle ends by issuing the next heading read. -/
theorem valid_frame_dispatches_once (st : ProxyState) (codec : Codec)
    (head : Heading) (payload : List Nat)
    (hrun : st.stopped = false)
    (hmagic : head.magic = st.protocol_magic)
    (hsize : head.payload_size ≤ st.capacity)
    (hsum : codec.checksum payload = head.checksum)
    (hparse : codec.parse head.command st.version payload
        = (.success, payload.length)) :
    (read_cycle st codec none true head none payload).1 = st ∧
    (read_cycle st codec none true head none payload).2.filter isDeliver
        = (st.msgHandlers.filter (fun h => h.1 == head.command)).map
            (fun h => Event.deliver head.command h.2) ∧
    (read_cycle st codec none true head none payload).2.filter isStopCalled
        = [] ∧
    (read_cycle st codec none true head none payload).2.getLast?
        = some .next_heading_read := by
  have h1 : handle_read_heading st none true head =
      (st, [Event.payload_read head.payload_size, Event.activity],
        some head) := by
    rw [handle_read_heading]
    simp [hrun, hmagic, Nat.not_lt.mpr hsize]
  have h2 : handle_read_payload st codec none head payload =
      (st, ((st.msgHandlers.filter (fun h => h.1 == head.command)).map
            (fun h => Event.deliver head.command h.2)) ++
            [Event.activity, Event.next_heading_read]) := by
    rw [handle_read_payload]
    simp [hrun, hsum, subscriber_load, hparse]
  have h3 : read_cycle st codec none true head none payload =
      (st, Event.payload_read head.payload_size :: Event.activity ::
        ((st.msgHandlers.filter (fun h => h.1 == head.command)).map
          (fun h => Event.deliver head.command h.2) ++
          [Event.activity, Event.next_heading_read])) := by
    rw [read_cycle, h1]
    simp [h2]
  rw [h3]
  refine ⟨rfl, ?_, ?_, ?_⟩
  · simp [List.filter_append, List.filter_map, Function.comp_def, isDeliver]
  · simp [List.filter_append, List.filter_map, Function.comp_def, isDeliver,
      isStopCalled]
  · rw [show Event.payload_read head.payload_size :: Event.activity ::
        ((st.msgHandlers.filter (fun h => h.1 == head.command)).map
          (fun h => Event.deliver head.command h.2) ++
          [Event.activity, Event.next_heading_read]) =
        (Event.payload_read head.payload_size :: Event.activity ::
          (st.msgHandlers.filter (fun h => h.1 == head.command)).map
            (fun h => Event.deliver head.command h.2)) ++
          [Event.activity, Event.next_heading_read] by simp]
    exact getLast?_append_pair _ _ _

/-- Closed check of `valid_frame_dispatches_once`: a valid "version" frame on
a concrete channel delivers once to the registered handler and the cycle
continues. -/
theorem valid_frame_dispatches_once_check :
    (read_cycle demoProxy demoCodec none true ⟨9, "version", 2, 3⟩ none
        [1, 2]).1 = demoProxy ∧
    (read_cycle demoProxy demoCodec none true ⟨9, "version", 2, 3⟩ none
        [1, 2]).2.filter isDeliver
      = (demoProxy.msgHandlers.filter (fun h => h.1 == "version")).map
          (fun h => Event.deliver "version" h.2) ∧
    (read_cycle demoProxy demoCodec none true ⟨9, "version", 2, 3⟩ none
        [1, 2]).2.filter isStopCalled = [] ∧
    (read_cycle demoProxy demoCodec none true ⟨9, "version", 2, 3⟩ none
        [1, 2]).2.getLast? = some .next_heading_read :=
  valid_frame_dispatches_once demoProxy demoCodec ⟨9, "version", 2, 3⟩ [1, 2]
    rfl rfl (by decide) rfl rfl

theorem stop_events_filters (st : ProxyState) (ec : ErrCode) :
    (proxy_stop st ec).1.stopped = true ∧
    (proxy_stop st ec).2.filter isStopCalled = [Event.stop_called ec] ∧
    (proxy_stop st ec).2.filter isDeliver = [] ∧
    (proxy_stop st ec).2.filter isPayloadRead = [] := by
  refine ⟨rfl, ?_, ?_, ?_⟩ <;>
    simp [proxy_stop, List.filter_append, List.filter_map, Function.comp_def,
      isStopCalled, isDeliver, isPayloadRead]

theorem hrh_invalid (st : ProxyState) (head : Heading)
    (hrun : st.stopped = false) :
    handle_read_heading st none false head =
      ((proxy_stop st .bad_stream).1, (proxy_stop st .bad_stream).2, none) := by
  rw [handle_read_heading]
  simp [hrun]

theorem hrh_bad_magic (st : ProxyState) (head : Heading)
    (hrun : st.stopped = false) (hm : head.magic ≠ st.protocol_magic) :
    handle_read_heading st none true head =
      ((proxy_stop st .bad_stream).1, (proxy_stop st .bad_stream).2, none) := by
  rw [handle_read_heading]
  simp [hrun, hm]

theorem hrh_oversize (st : ProxyState) (head : Heading)
    (hrun : st.stopped = false) (hm : head.magic = st.protocol_magic)
    (ho : head.payload_size > st.capacity) :
    handle_read_heading st none true head =
      ((proxy_stop st .bad_stream).1, (proxy_stop st .bad_stream).2, none) := by
  rw [handle_read_heading]
  simp [hrun, hm, ho]

theorem hrh_accept (st : ProxyState) (head : Heading)
    (hrun : st.stopped = false) (hm : head.magic = st.protocol_magic)
    (hs : head.payload_size ≤ st.capacity) :
    handle_read_heading st none true head =
      (st, [Event.payload_read head.payload_size, Event.activity],
        some head) := by
  rw [handle_read_heading]
  simp [hrun, hm, Nat.not_lt.mpr hs]

theorem hrp_bad_checksum (st : ProxyState) (codec : Codec) (head : Heading)
    (payload : List Nat) (hrun : st.stopped = false)
    (hsum : codec.checksum payload ≠ head.checksum) :
    handle_read_payload st codec none head payload =
      ((proxy_stop st .bad_stream).1, (proxy_stop st .bad_stream).2) := by
  rw [handle_read_payload]
  simp [hrun, Ne.symm hsum]

theorem hrp_parse_fail (st : ProxyState) (codec : Codec) (head : Heading)
    (payload : List Nat) (c : ErrCode) (n : Nat)
    (hrun : st.stopped = false)
    (hsum : codec.checksum payload = head.checksum)
    (hp : codec.parse head.command st.version payload = (c, n))
    (hc : c ≠ .success) :
    handle_read_payload st codec none head payload =
      ((proxy_stop st c).1, (proxy_stop st c).2) := by
  rw [handle_read_payload]
  simp [hrun, hsum, subscriber_load, hp, hc]

theorem hrp_trailing (st : ProxyState) (codec : Codec) (head : Heading)
    (payload : List Nat) (n : Nat)
    (hrun : st.stopped = false)
    (hsum : codec.checksum payload = head.checksum)
    (hp : codec.parse head.command st.version payload = (.success, n))
    (hn : n ≠ payload.length) :
    handle_read_payload st codec none head payload =
      ((proxy_stop st .bad_stream).1,
        (st.msgHandlers.filter (fun h => h.1 == head.command)).map
          (fun h => Event.deliver head.command h.2) ++
        (proxy_stop st .bad_stream).2) := by
  rw [handle_read_payload]
  simp [hrun, hsum, subscriber_load, hp, hn]

/-- C2 amended: an ill-formed frame always stops the channel — with
bad_stream for an invalid heading, magic mismatch, oversized payload,
checksum mismatch or trailing bytes, and with the codec's own error for a
parse failure — and no typed subscriber receives a message, except in the
trailing-bytes case: there the payload parsed successfully and
`message_subscriber_.load` has already delivered the parsed message to the
command's subscribers before the trailing-bytes check stops the channel. -/
theorem ill_formed_frame_stops (st : ProxyState) (codec : Codec)
    (head : Heading) (payload : List Nat) (c : ErrCode) (n : Nat)
    (hrun : st.stopped = false) :
    StopsNoDeliver (read_cycle st codec none false head none payload)
      .bad_stream ∧
    (head.magic ≠ st.protocol_magic →
      StopsNoDeliver (read_cycle st codec none true head none payload)
        .bad_stream) ∧
    (head.magic = st.protocol_magic → head.payload_size > st.capacity →
      StopsNoDeliver (read_cycle st codec none true head none payload)
        .bad_stream ∧
      (read_cycle st codec none true head none payload).2.filter
        isPayloadRead = []) ∧
    (head.magic = st.protocol_magic → head.payload_size ≤ st.capacity →
      codec.checksum payload ≠ head.checksum →
      StopsNoDeliver (read_cycle st codec none true head none payload)
        .bad_stream) ∧
    (head.magic = st.protocol_magic → head.payload_size ≤ st.capacity →
      codec.checksum payload = head.checksum →
      codec.parse head.command st.version payload = (c, n) → c ≠ .success →
      StopsNoDeliver (read_cycle st codec none true head none payload) c) ∧
    (head.magic = st.protocol_magic → head.payload_size ≤ st.capacity →
      codec.checksum payload = head.checksum →
      codec.parse head.command st.version payload = (.success, n) →
      n ≠ payload.length →
      (read_cycle st codec none true head none payload).1.stopped = true ∧
      (read_cycle st codec none true head none payload).2.filter isStopCalled
          = [Event.stop_called .bad_stream] ∧
      (read_cycle st codec none true head none payload).2.filter isDeliver
          = (st.msgHandlers.filter (fun h => h.1 == head.command)).map
              (fun h => Event.deliver head.command h.2)) := by
  obtain ⟨s1, s2, s3, s4⟩ := stop_events_filters st .bad_stream
  refine ⟨?_, fun hm => ?_, fun hm ho => ?_, fun hm hs hsum => ?_,
    fun hm hs hsum hp hc => ?_, fun hm hs hsum hp hn => ?_⟩
  · rw [read_cycle, hrh_invalid st head hrun]
    exact ⟨s1, s2, s3⟩
  · rw [read_cycle, hrh_bad_magic st head hrun hm]
    exact ⟨s1, s2, s3⟩
  · rw [read_cycle, hrh_oversize st head hrun hm ho]
    exact ⟨⟨s1, s2, s3⟩, s4⟩
  · rw [read_cycle]
    simp only [hrh_accept st head hrun hm hs,
      hrp_bad_checksum st codec head payload hrun hsum]
    refine ⟨s1, ?_, ?_⟩ <;>
      simp [List.filter_append, List.filter_cons, isStopCalled, isDeliver,
        s2, s3]
  · obtain ⟨t1, t2, t3, _⟩ := stop_events_filters st c
    rw [read_cycle]
    simp only [hrh_accept st head hrun hm hs,
      hrp_parse_fail st codec head payload c n hrun hsum hp hc]
    refine ⟨t1, ?_, ?_⟩ <;>
      simp [List.filter_append, List.filter_cons, isStopCalled, isDeliver,
        t2, t3]
  · rw [read_cycle]
    simp only [hrh_accept st head hrun hm hs,
      hrp_trailing st codec head payload n hrun hsum hp hn]
    refine ⟨s1, ?_, ?_⟩ <;>
      simp [List.filter_append, List.filter_cons, isStopCalled, isDeliver,
        List.filter_map, Function.comp_def, s2, s3]

/-- C2 counterexample: a frame whose payload passes the checksum and parses
successfully but leaves trailing bytes stops the channel with bad_stream, yet
the typed subscriber HAS received the parsed message: the delivery inside
`message_subscriber_.load` (src/proxy.cpp:233) precedes the trailing-bytes
check (src/proxy.cpp:250). -/
theorem trailing_bytes_still_delivered :
    (read_cycle demoProxy demoCodecShort none true ⟨9, "version", 2, 3⟩ none
        [1, 2]).1.stopped = true ∧
    Event.stop_called .bad_stream ∈
      (read_cycle demoProxy demoCodecShort none true ⟨9, "version", 2, 3⟩ none
        [1, 2]).2 ∧
    Event.deliver "version" 7 ∈
      (read_cycle demoProxy demoCodecShort none true ⟨9, "version", 2, 3⟩ none
        [1, 2]).2 := by
  decide

/-- Closed check of `ill_formed_frame_stops`: each ill-formed variant of a
concrete frame stops a concrete channel with the expected code. -/
theorem ill_formed_frame_stops_check :
    StopsNoDeliver (read_cycle demoProxy demoCodec none false
      ⟨9, "version", 2, 3⟩ none [1, 2]) .bad_stream ∧
    StopsNoDeliver (read_cycle demoProxy demoCodec none true
      ⟨8, "version", 2, 3⟩ none [1, 2]) .bad_stream ∧
    (StopsNoDeliver (read_cycle demoProxy demoCodec none true
        ⟨9, "version", 11, 0⟩ none [1, 2]) .bad_stream ∧
      (read_cycle demoProxy demoCodec none true ⟨9, "version", 11, 0⟩ none
        [1, 2]).2.filter isPayloadRead = []) ∧
    StopsNoDeliver (read_cycle demoProxy demoCodec none true
      ⟨9, "version", 2, 4⟩ none [1, 2]) .bad_stream ∧
    StopsNoDeliver (read_cycle demoProxy demoCodecFail none true
      ⟨9, "version", 2, 3⟩ none [1, 2]) (.parse 5) ∧
    ((read_cycle demoProxy demoCodecShort none true ⟨9, "version", 2, 3⟩ none
        [1, 2]).1.stopped = true ∧
      (read_cycle demoProxy demoCodecShort none true ⟨9, "version", 2, 3⟩ none
        [1, 2]).2.filter isStopCalled = [Event.stop_called .bad_stream] ∧
      (read_cycle demoProxy demoCodecShort none true ⟨9, "version", 2, 3⟩ none
        [1, 2]).2.filter isDeliver
          = (demoProxy.msgHandlers.filter (fun h => h.1 == "version")).map
              (fun h => Event.deliver "version" h.2)) :=
  ⟨(ill_formed_frame_stops demoProxy demoCodec ⟨9, "version", 2, 3⟩ [1, 2]
      .success 0 rfl).1,
    (ill_formed_frame_stops demoProxy demoCodec ⟨8, "version", 2, 3⟩ [1, 2]
      .success 0 rfl).2.1 (by decide),
    (ill_formed_frame_stops demoProxy demoCodec ⟨9, "version", 11, 0⟩ [1, 2]
      .success 0 rfl).2.2.1 rfl (by decide),
    (ill_formed_frame_stops demoProxy demoCodec ⟨9, "version", 2, 4⟩ [1, 2]
      .success 0 rfl).2.2.2.1 rfl (by decide) (by decide),
    (ill_formed_frame_stops demoProxy demoCodecFail ⟨9, "version", 2, 3⟩
      [1, 2] (.parse 5) 0 rfl).2.2.2.2.1 rfl (by decide) rfl rfl (by decide),
    (ill_formed_frame_stops demoProxy demoCodecShort ⟨9, "version", 2, 3⟩
      [1, 2] .success 1 rfl).2.2.2.2.2 rfl (by decide) rfl rfl (by decide)⟩

/-- C3 counterexample: the oversize check compares against the payload buffer
capacity max_payload(protocol_maximum), not max_payload(current version).
With the strictly increasing (hence monotonically non-decreasing)
max_payload `fun v => v`, protocol maximum 2 and current version narrowed to
1, a heading with payload_length = max_payload(1) + 1 = 2 is accepted: the
channel is not stopped and the payload read is issued. -/
theorem oversize_check_uses_configured_maximum :
    negotiated_version demoNarrowed = 1 ∧
    (2 : Nat) = (fun v : Nat => v) (negotiated_version demoNarrowed) + 1 ∧
    (handle_read_heading demoNarrowed none true
      ⟨9, "ping", 2, 0⟩).1.stopped = false ∧
    (handle_read_heading demoNarrowed none true ⟨9, "ping", 2, 0⟩).2.2
      = some ⟨9, "ping", 2, 0⟩ ∧
    (handle_read_heading demoNarrowed none true
      ⟨9, "ping", 2, 0⟩).2.1.filter isStopCalled = [] ∧
    Event.payload_read 2 ∈
      (handle_read_heading demoNarrowed none true ⟨9, "ping", 2, 0⟩).2.1 := by
  decide

/-- C3 amended: the channel stops with bad_stream before any payload bytes
are read whenever the heading's payload length exceeds the payload buffer
capacity, which is max_payload at the CONFIGURED protocol maximum; in
particular a payload length of max_payload(protocol_maximum) + 1 always
stops, and payload length max_payload(current_version) + 1 stops whenever the
current version's maximum payload coincides with the configured maximum's
(for example before any narrowing). -/
theorem oversized_payload_stops (mp : Nat → Nat) (maxv : Nat)
    (st : ProxyState) (codec : Codec) (head : Heading) (pec : Option ErrCode)
    (payload : List Nat)
    (hrun : st.stopped = false)
    (hcap : st.capacity = mp maxv)
    (hmagic : head.magic = st.protocol_magic)
    (hsize : head.payload_size = mp maxv + 1) :
    (read_cycle st codec none true head pec payload).1.stopped = true ∧
    (read_cycle st codec none true head pec payload).2.filter isStopCalled
        = [Event.stop_called .bad_stream] ∧
    (read_cycle st codec none true head pec payload).2.filter isPayloadRead
        = [] ∧
    (read_cycle st codec none true head pec payload).2.filter isDeliver
        = [] := by
  obtain ⟨s1, s2, s3, s4⟩ := stop_events_filters st .bad_stream
  have ho : head.payload_size > st.capacity := by
    rw [hsize, hcap]
    exact Nat.lt_succ_self _
  rw [read_cycle, hrh_oversize st head hrun hmagic ho]
  exact ⟨s1, s2, s4, s3⟩

/-- Closed check of `oversized_payload_stops`: payload length
max_payload(protocol maximum 10) + 1 = 11 stops a concrete channel before
any payload read. -/
theorem oversized_payload_stops_check :
    (read_cycle demoProxy demoCodec none true ⟨9, "ping", 11, 0⟩ none
      []).1.stopped = true ∧
    (read_cycle demoProxy demoCodec none true ⟨9, "ping", 11, 0⟩ none
      []).2.filter isStopCalled = [Event.stop_called .bad_stream] ∧
    (read_cycle demoProxy demoCodec none true ⟨9, "ping", 11, 0⟩ none
      []).2.filter isPayloadRead = [] ∧
    (read_cycle demoProxy demoCodec none true ⟨9, "ping", 11, 0⟩ none
      []).2.filter isDeliver = [] :=
  oversized_payload_stops (fun v => v) 10 demoProxy demoCodec ⟨9, "ping", 11, 0⟩
    none [] rfl rfl rfl rfl
